import Mathlib

/-!
# Verification of the dialmateai core against its specification

Shallow embedding, in Lean 4, of the algorithmic core of the repository:

* `src/core/tracking/conversation_tracker.py` (`RelationshipTracker`)
* `src/core/assessment/iq_assessment.py` (`AdaptiveIQAssessment`)
* `src/core/relationship/relationship_analyzer.py` (`RelationshipAnalyzer`)
* `src/core/analyzer/conversation_processor.py` (`ConversationProcessor`)

Python floats are modelled as exact rationals (`ℚ`), Python ints as `ℤ`/`ℕ`,
dictionaries as functions into `Option`.  Mutating methods become functions
from state to state.  A Python method that signals failure by returning an
error dictionary or by raising is embedded as a function returning an
explicit outcome type.
-/

namespace Dialmate

/-! ## RelationshipTracker (src/core/tracking/conversation_tracker.py)

An `InteractionEvent` carries the fields the tracker actually reads when
updating state.  Timestamps are abstracted away: every tracked event is
treated as lying inside the 30-day recency window used by
`_get_recent_interactions` (the real code filters on `datetime.now()`;
within the window the filter is the identity). -/

structure InteractionEvent where
  sender_id : ℤ
  receiver_id : ℤ
  sentiment_score : ℚ
  engagement_score : ℚ
  response_time : ℚ
deriving Repr, DecidableEq

/-- A directed edge of `interaction_graph`: attributes set by `_update_graph`. -/
structure RelationshipEdge where
  interactions : ℕ
  avg_sentiment : ℚ
  avg_engagement : ℚ
deriving Repr, DecidableEq

/-- State of a `RelationshipTracker`: `interaction_history` keyed by the
ordered pair `(sender_id, receiver_id)`, and the directed `interaction_graph`
(absent edge = `none`). -/
structure TrackerState where
  interaction_history : ℤ × ℤ → List InteractionEvent
  interaction_graph : ℤ × ℤ → Option RelationshipEdge

/-- `RelationshipTracker.__init__`: empty history, empty graph. -/
def TrackerState.init : TrackerState :=
  { interaction_history := fun _ => []
    interaction_graph := fun _ => none }

/-- `RelationshipTracker._update_graph`: create the edge with zeroed state if
absent, then apply the incremental-mean update
`avg' = (n·avg + x)/(n+1)` to both averages and increment `interactions`. -/
def update_graph (g : ℤ × ℤ → Option RelationshipEdge) (ev : InteractionEvent) :
    ℤ × ℤ → Option RelationshipEdge :=
  let e := (g (ev.sender_id, ev.receiver_id)).getD
    { interactions := 0, avg_sentiment := 0, avg_engagement := 0 }
  let n : ℚ := e.interactions
  let e' : RelationshipEdge :=
    { interactions := e.interactions + 1
      avg_sentiment := (n * e.avg_sentiment + ev.sentiment_score) / (n + 1)
      avg_engagement := (n * e.avg_engagement + ev.engagement_score) / (n + 1) }
  fun p => if p = (ev.sender_id, ev.receiver_id) then some e' else g p

/-- State effect of `RelationshipTracker.track_interaction`: append the event
to the `(sender, receiver)` history, then `_update_graph`. -/
def track_interaction (s : TrackerState) (ev : InteractionEvent) : TrackerState :=
  { interaction_history := fun p =>
      if p = (ev.sender_id, ev.receiver_id)
      then s.interaction_history p ++ [ev] else s.interaction_history p
    interaction_graph := update_graph s.interaction_graph ev }

/-- Fold `track_interaction` over a list of events, from a given state. -/
def track_all (s : TrackerState) (evs : List InteractionEvent) : TrackerState :=
  evs.foldl track_interaction s

/-- `RelationshipTracker._calculate_relationship_strength`.  Returns `0.0`
when the edge `user1 → user2` is absent; otherwise reads the reverse edge,
substituting `interactions = 0` (in the `min`), `1` (in the `max`) and
averages `0` when it is absent, and combines
`interaction_balance`, `sentiment_harmony`, `engagement_harmony` with
weights 0.3 / 0.4 / 0.3.  Divisions are exact `ℚ` divisions; for every state
produced by `track_interaction` the denominator `max ...` is positive
(every existing edge has `interactions ≥ 1`). -/
def calculate_relationship_strength (s : TrackerState) (user1 user2 : ℤ) : ℚ :=
  match s.interaction_graph (user1, user2) with
  | none => 0
  | some edge1 =>
    let edge2 := s.interaction_graph (user2, user1)
    let c2min : ℕ := match edge2 with | some e2 => e2.interactions | none => 0
    let c2max : ℕ := match edge2 with | some e2 => e2.interactions | none => 1
    let s2 : ℚ := match edge2 with | some e2 => e2.avg_sentiment | none => 0
    let g2 : ℚ := match edge2 with | some e2 => e2.avg_engagement | none => 0
    let interaction_balance : ℚ :=
      ((min edge1.interactions c2min : ℕ) : ℚ) / ((max edge1.interactions c2max : ℕ) : ℚ)
    let sentiment_harmony : ℚ := 1 - |edge1.avg_sentiment - s2| / 2
    let engagement_harmony : ℚ := 1 - |edge1.avg_engagement - g2| / 2
    3/10 * interaction_balance + 4/10 * sentiment_harmony + 3/10 * engagement_harmony

/-- The fields of the metrics dictionary built by
`RelationshipTracker.calculate_relationship_metrics` that are exact rational
computations.  The remaining entries (`sentiment_trend`'s regression slope and
volatility, `engagement_quality`, `response_patterns`) are real-valued
statistics (they involve `np.std` / `np.polyfit`); no claim depends on their
values and they cannot change whether the dictionary is empty, which is
decided before any of them is computed. -/
structure RelationshipMetrics where
  interaction_frequency : ℚ
  relationship_strength : ℚ
deriving Repr, DecidableEq

/-- `RelationshipTracker.calculate_relationship_metrics`: gathers the two
directions' histories ("recent interactions"; recency abstracted, see
`InteractionEvent`); returns the empty dictionary (`none`) when there are
none, otherwise the metrics dictionary. -/
def calculate_relationship_metrics (s : TrackerState) (user1 user2 : ℤ) :
    Option RelationshipMetrics :=
  let recent := s.interaction_history (user1, user2) ++ s.interaction_history (user2, user1)
  if recent.isEmpty then none
  else some
    { interaction_frequency := (recent.length : ℚ) / 30
      relationship_strength := calculate_relationship_strength s user1 user2 }

/-- An interaction event for the ordered pair `(a, b)` carrying a sentiment
and an engagement value (response time immaterial to the graph update). -/
def mkEvent (a b : ℤ) (v : ℚ × ℚ) : InteractionEvent :=
  { sender_id := a, receiver_id := b, sentiment_score := v.1,
    engagement_score := v.2, response_time := 0 }

lemma track_all_cons (s : TrackerState) (ev : InteractionEvent)
    (evs : List InteractionEvent) :
    track_all s (ev :: evs) = track_all (track_interaction s ev) evs := rfl

lemma track_interaction_graph_self (s : TrackerState) (a b : ℤ) (v : ℚ × ℚ)
    (e : RelationshipEdge) (h : s.interaction_graph (a, b) = some e) :
    (track_interaction s (mkEvent a b v)).interaction_graph (a, b) =
      some { interactions := e.interactions + 1
             avg_sentiment :=
               ((e.interactions : ℚ) * e.avg_sentiment + v.1) / ((e.interactions : ℚ) + 1)
             avg_engagement :=
               ((e.interactions : ℚ) * e.avg_engagement + v.2) / ((e.interactions : ℚ) + 1) } := by
  simp [track_interaction, update_graph, mkEvent, h]

/-- After folding a run of events for the pair `(a, b)` over a state whose
edge `(a, b)` is `⟨n, sa, ea⟩` with `n ≠ 0`, the edge is
`⟨n + k, (n·sa + Σ sentiments)/(n + k), (n·ea + Σ engagements)/(n + k)⟩`. -/
lemma track_all_pair_edge (a b : ℤ) (vals : List (ℚ × ℚ)) :
    ∀ (s : TrackerState) (e : RelationshipEdge),
      s.interaction_graph (a, b) = some e → e.interactions ≠ 0 →
      (track_all s (vals.map (mkEvent a b))).interaction_graph (a, b) =
        some { interactions := e.interactions + vals.length
               avg_sentiment :=
                 ((e.interactions : ℚ) * e.avg_sentiment + (vals.map Prod.fst).sum) /
                   ((e.interactions : ℚ) + vals.length)
               avg_engagement :=
                 ((e.interactions : ℚ) * e.avg_engagement + (vals.map Prod.snd).sum) /
                   ((e.interactions : ℚ) + vals.length) } := by
  induction vals with
  | nil =>
    intro s e h hn
    have hq : (e.interactions : ℚ) ≠ 0 := Nat.cast_ne_zero.mpr hn
    simp only [List.map_nil, track_all, List.foldl_nil, h, List.length_nil,
      List.sum_nil, add_zero, Nat.cast_zero]
    rw [mul_div_cancel_left₀ _ hq, mul_div_cancel_left₀ _ hq]
  | cons v rest ih =>
    intro s e h hn
    rw [List.map_cons, track_all_cons]
    have hstep := track_interaction_graph_self s a b v e h
    have hres := ih (track_interaction s (mkEvent a b v))
      { interactions := e.interactions + 1
        avg_sentiment :=
          ((e.interactions : ℚ) * e.avg_sentiment + v.1) / ((e.interactions : ℚ) + 1)
        avg_engagement :=
          ((e.interactions : ℚ) * e.avg_engagement + v.2) / ((e.interactions : ℚ) + 1) }
      hstep (Nat.succ_ne_zero _)
    rw [hres]
    have h1 : ((e.interactions : ℚ) + 1) ≠ 0 := by positivity
    have h2 : ((e.interactions : ℚ) + 1 + (rest.length : ℚ)) ≠ 0 := by positivity
    have h3 : ((e.interactions : ℚ) + ((rest.length : ℚ) + 1)) ≠ 0 := by positivity
    simp only [Option.some.injEq, RelationshipEdge.mk.injEq, List.length_cons,
      List.map_cons, List.sum_cons]
    refine ⟨by omega, ?_, ?_⟩
    · push_cast
      field_simp
      ring
    · push_cast
      field_simp
      ring

/-- C1: after tracking `N ≥ 1` interactions for the ordered pair `(a, b)`
with sentiment values `vals.map Prod.fst` and engagement values
`vals.map Prod.snd`, the directed edge `(a, b)` holds `interactions = N`,
`avg_sentiment = (Σ sentiments)/N` and `avg_engagement = (Σ engagements)/N`:
the incremental update `avg' = (n·avg + x)/(n+1)`, applied with the
pre-update count and followed by the count increment, computes the exact
arithmetic mean. -/
theorem avg_sentiment_is_arithmetic_mean (a b : ℤ) (vals : List (ℚ × ℚ))
    (h : vals ≠ []) :
    (track_all TrackerState.init (vals.map (mkEvent a b))).interaction_graph (a, b) =
      some { interactions := vals.length
             avg_sentiment := (vals.map Prod.fst).sum / (vals.length : ℚ)
             avg_engagement := (vals.map Prod.snd).sum / (vals.length : ℚ) } := by
  match vals, h with
  | v :: rest, _ =>
    rw [List.map_cons, track_all_cons]
    have hstep : (track_interaction TrackerState.init (mkEvent a b v)).interaction_graph (a, b) =
        some { interactions := 1, avg_sentiment := v.1, avg_engagement := v.2 } := by
      simp [track_interaction, update_graph, mkEvent, TrackerState.init]
    have hres := track_all_pair_edge a b rest
      (track_interaction TrackerState.init (mkEvent a b v))
      { interactions := 1, avg_sentiment := v.1, avg_engagement := v.2 }
      hstep one_ne_zero
    rw [hres]
    simp only [Option.some.injEq, RelationshipEdge.mk.injEq, List.length_cons,
      List.map_cons, List.sum_cons, Nat.cast_one, one_mul]
    refine ⟨by omega, ?_, ?_⟩
    · push_cast
      ring_nf
    · push_cast
      ring_nf

/-- Witness for C1 at the concrete run `[(1/2, 1), (1, 0)]` for the pair
`(1, 2)`: the edge ends with count 2, `avg_sentiment = 3/4`,
`avg_engagement = 1/2`. -/
theorem avg_sentiment_is_arithmetic_mean_witness :
    (track_all TrackerState.init
        ([((1 : ℚ)/2, (1 : ℚ)), (1, 0)].map (mkEvent 1 2))).interaction_graph (1, 2) =
      some { interactions := 2, avg_sentiment := 3/4, avg_engagement := 1/2 } := by
  rw [avg_sentiment_is_arithmetic_mean 1 2 [((1 : ℚ)/2, (1 : ℚ)), (1, 0)] (by decide)]
  norm_num

/-- C4: `relationship_strength` is symmetric whenever both directed edges
exist and carry identical interaction counts, identical `avg_sentiment` and
identical `avg_engagement`: the sub-metrics (interaction balance,
sentiment harmony, engagement harmony, combined with weights 0.3/0.4/0.3)
are then invariant under swapping the two directions. -/
theorem relationship_strength_symm (s : TrackerState) (u v : ℤ)
    (e1 e2 : RelationshipEdge)
    (h1 : s.interaction_graph (u, v) = some e1)
    (h2 : s.interaction_graph (v, u) = some e2)
    (hc : e1.interactions = e2.interactions)
    (hs : e1.avg_sentiment = e2.avg_sentiment)
    (he : e1.avg_engagement = e2.avg_engagement) :
    calculate_relationship_strength s u v = calculate_relationship_strength s v u := by
  simp only [calculate_relationship_strength, h1, h2]
  rw [hc, hs, he]

/-- Witness for C4: after one interaction in each direction with the same
scores, the two directed edges are identical and the strength is the same
from either side. -/
theorem relationship_strength_symm_witness :
    calculate_relationship_strength
        (track_all TrackerState.init [mkEvent 1 2 (1/2, 1/2), mkEvent 2 1 (1/2, 1/2)]) 1 2 =
      calculate_relationship_strength
        (track_all TrackerState.init [mkEvent 1 2 (1/2, 1/2), mkEvent 2 1 (1/2, 1/2)]) 2 1 :=
  relationship_strength_symm _ 1 2 ⟨1, 1/2, 1/2⟩ ⟨1, 1/2, 1/2⟩
    (by norm_num [track_all, track_interaction, update_graph, TrackerState.init, mkEvent])
    (by norm_num [track_all, track_interaction, update_graph, TrackerState.init, mkEvent])
    rfl rfl rfl

lemma sync_step (s : TrackerState) (ev : InteractionEvent)
    (h : ∀ p, s.interaction_history p = [] ↔ s.interaction_graph p = none) :
    ∀ p, (track_interaction s ev).interaction_history p = [] ↔
      (track_interaction s ev).interaction_graph p = none := by
  intro p
  by_cases hp : p = (ev.sender_id, ev.receiver_id)
  · subst hp
    simp [track_interaction, update_graph]
  · simp [track_interaction, update_graph, hp, h p]

lemma sync_fold (evs : List InteractionEvent) :
    ∀ (s : TrackerState),
      (∀ p, s.interaction_history p = [] ↔ s.interaction_graph p = none) →
      ∀ p, (track_all s evs).interaction_history p = [] ↔
        (track_all s evs).interaction_graph p = none := by
  induction evs with
  | nil => intro s h p; exact h p
  | cons ev rest ih =>
    intro s h p
    exact ih (track_interaction s ev) (sync_step s ev h) p

/-- In every reachable tracker state, the per-pair history is empty exactly
when the corresponding directed edge is absent (`track_interaction` always
creates both together). -/
lemma sync_all (evs : List InteractionEvent) (p : ℤ × ℤ) :
    (track_all TrackerState.init evs).interaction_history p = [] ↔
      (track_all TrackerState.init evs).interaction_graph p = none :=
  sync_fold evs TrackerState.init (fun _ => by simp [TrackerState.init]) p

/-- C5: in every reachable tracker state, (a) when the edge `u1 → u2` exists
but the reverse edge is absent, `relationship_strength` still proceeds from
the existing edge, the reverse direction defaulting to zero interactions
(and `1` in the balance denominator) and zero averages; and (b) the strength
is `0` and the pair metrics are the empty result exactly when no edge exists
in either direction. -/
theorem strength_default_and_empty_iff (evs : List InteractionEvent) (u1 u2 : ℤ) :
    (∀ e1, (track_all TrackerState.init evs).interaction_graph (u1, u2) = some e1 →
      (track_all TrackerState.init evs).interaction_graph (u2, u1) = none →
      calculate_relationship_strength (track_all TrackerState.init evs) u1 u2 =
        3/10 * (((min e1.interactions 0 : ℕ) : ℚ) / ((max e1.interactions 1 : ℕ) : ℚ)) +
        4/10 * (1 - |e1.avg_sentiment - 0| / 2) +
        3/10 * (1 - |e1.avg_engagement - 0| / 2)) ∧
    ((calculate_relationship_strength (track_all TrackerState.init evs) u1 u2 = 0 ∧
      calculate_relationship_metrics (track_all TrackerState.init evs) u1 u2 = none) ↔
     ((track_all TrackerState.init evs).interaction_graph (u1, u2) = none ∧
      (track_all TrackerState.init evs).interaction_graph (u2, u1) = none)) := by
  constructor
  · intro e1 h1 h2
    simp only [calculate_relationship_strength, h1, h2]
  · constructor
    · rintro ⟨-, hm⟩
      have hrec : (track_all TrackerState.init evs).interaction_history (u1, u2) ++
          (track_all TrackerState.init evs).interaction_history (u2, u1) = [] := by
        by_contra hne
        simp [calculate_relationship_metrics, List.isEmpty_iff, hne] at hm
      obtain ⟨ha, hb⟩ := List.append_eq_nil.mp hrec
      exact ⟨(sync_all evs (u1, u2)).mp ha, (sync_all evs (u2, u1)).mp hb⟩
    · rintro ⟨g1, g2⟩
      refine ⟨by simp [calculate_relationship_strength, g1], ?_⟩
      have ha := (sync_all evs (u1, u2)).mpr g1
      have hb := (sync_all evs (u2, u1)).mpr g2
      simp [calculate_relationship_metrics, ha, hb]

/-- Witness for C5: with a single tracked interaction `1 → 2` (sentiment 1,
engagement 1), the strength of `(1, 2)` is computed from the existing edge
with the absent reverse edge defaulted (value `7/20`), while the untouched
pair `(3, 4)` has strength `0` and empty metrics. -/
theorem strength_default_and_empty_iff_witness :
    calculate_relationship_strength (track_all TrackerState.init [mkEvent 1 2 (1, 1)]) 1 2 = 7/20 ∧
    calculate_relationship_strength (track_all TrackerState.init [mkEvent 1 2 (1, 1)]) 3 4 = 0 ∧
    calculate_relationship_metrics (track_all TrackerState.init [mkEvent 1 2 (1, 1)]) 3 4 = none := by
  have h12 := (strength_default_and_empty_iff [mkEvent 1 2 (1, 1)] 1 2).1
    ⟨1, 1, 1⟩
    (by norm_num [track_all, track_interaction, update_graph, TrackerState.init, mkEvent])
    (by norm_num [track_all, track_interaction, update_graph, TrackerState.init, mkEvent])
  have h34 := (strength_default_and_empty_iff [mkEvent 1 2 (1, 1)] 3 4).2.mpr
    ⟨by norm_num [track_all, track_interaction, update_graph, TrackerState.init, mkEvent],
     by norm_num [track_all, track_interaction, update_graph, TrackerState.init, mkEvent]⟩
  refine ⟨?_, h34.1, h34.2⟩
  rw [h12]
  norm_num

/-! ## ConversationProcessor (src/core/analyzer/conversation_processor.py)

A message event as read by the processor: the sender and the processing
time (`datetime.now()`, modelled in whole seconds).  Message text is opaque
to every metric. -/

structure CPMessage where
  user_id : ℤ
  time : ℕ
deriving Repr, DecidableEq

/-- One entry of `active_conversations`: message list, participant set
(modelled as a duplicate-free insertion list), creation time and time of the
last processed message. -/
structure Conversation where
  messages : List CPMessage
  participants : List ℤ
  start_time : ℕ
  last_update : ℕ
deriving Repr, DecidableEq

/-- `active_conversations`, keyed by conversation id. -/
def ProcessorState := String → Option Conversation

def ProcessorState.init : ProcessorState := fun _ => none

/-- Python `set.add`: insert the id if it is not already present. -/
def addParticipant (ps : List ℤ) (uid : ℤ) : List ℤ :=
  if uid ∈ ps then ps else ps ++ [uid]

/-- `ConversationProcessor.process_message`: create the conversation on first
sight (`start_time = last_update = now`), append the message, add the sender
to the participants, set `last_update := now`. -/
def process_message (st : ProcessorState) (cid : String) (uid : ℤ) (now : ℕ) :
    ProcessorState :=
  let conv := (st cid).getD
    { messages := [], participants := [], start_time := now, last_update := now }
  let conv' : Conversation :=
    { messages := conv.messages ++ [⟨uid, now⟩]
      participants := addParticipant conv.participants uid
      start_time := conv.start_time
      last_update := now }
  fun c => if c = cid then some conv' else st c

def process_all (st : ProcessorState) (msgs : List (String × ℤ × ℕ)) : ProcessorState :=
  msgs.foldl (fun s m => process_message s m.1 m.2.1 m.2.2) st

/-- `(last_update - start_time).seconds`: Python's `timedelta.seconds` is the
seconds component, i.e. the elapsed seconds modulo one day (whole days are
dropped — every scenario in the claims stays below a day). -/
def durationSeconds (c : Conversation) : ℕ := (c.last_update - c.start_time) % 86400

/-- The dictionary built by `ConversationProcessor.get_conversation_metrics`
in the found case. -/
structure ConversationMetrics where
  total_messages : ℕ
  participant_count : ℕ
  duration_seconds : ℕ
  messages_per_participant : ℤ → ℕ
  average_messages_per_participant : ℚ
  messages_per_minute : ℚ

/-- `get_conversation_metrics` body for an existing conversation: the two
divisions are guarded (`... if participants else 0`,
`... if duration > 0 else 0`). -/
def conv_metrics (c : Conversation) : ConversationMetrics :=
  let total := c.messages.length
  let duration := durationSeconds c
  { total_messages := total
    participant_count := c.participants.length
    duration_seconds := duration
    messages_per_participant := fun u => (c.messages.filter (fun m => m.user_id = u)).length
    average_messages_per_participant :=
      if c.participants.isEmpty then 0 else (total : ℚ) / (c.participants.length : ℚ)
    messages_per_minute :=
      if 0 < duration then ((total : ℚ) * 60) / (duration : ℚ) else 0 }

/-- `ConversationProcessor.get_conversation_metrics`: `none` models the
`{'error': 'Conversation not found'}` return. -/
def get_conversation_metrics (st : ProcessorState) (cid : String) :
    Option ConversationMetrics :=
  (st cid).map conv_metrics

/-- The five-message scenario of the spec: user 1 sends 3 messages and
user 2 sends 2, spanning 120 seconds, all in conversation `"c1"`. -/
def scenarioMsgs : List (String × ℤ × ℕ) :=
  [("c1", 1, 0), ("c1", 1, 30), ("c1", 1, 60), ("c1", 2, 90), ("c1", 2, 120)]

/-- C6: the metrics computation is total (no division ever raises): for any
conversation with an empty participant set,
`average_messages_per_participant = 0`, and for any conversation with zero
duration, `messages_per_minute = 0`; and on the concrete scenario
(3 messages from user 1, 2 from user 2, spanning 120 s) the metrics of
`"c1"` are `total_messages = 5`, `participant_count = 2`,
`messages_per_minute = 5/2`. -/
theorem conversation_metrics_guarded (c c' : Conversation)
    (h : c.participants = []) (h' : durationSeconds c' = 0) :
    (conv_metrics c).average_messages_per_participant = 0 ∧
    (conv_metrics c').messages_per_minute = 0 ∧
    (get_conversation_metrics (process_all ProcessorState.init scenarioMsgs) "c1").map
        (fun m => m.total_messages) = some 5 ∧
    (get_conversation_metrics (process_all ProcessorState.init scenarioMsgs) "c1").map
        (fun m => m.participant_count) = some 2 ∧
    (get_conversation_metrics (process_all ProcessorState.init scenarioMsgs) "c1").map
        (fun m => m.messages_per_minute) = some (5/2) := by
  refine ⟨by simp [conv_metrics, h], by simp [conv_metrics, h'], ?_, ?_, ?_⟩ <;>
    norm_num [scenarioMsgs, process_all, process_message, get_conversation_metrics,
      conv_metrics, durationSeconds, addParticipant, ProcessorState.init]

/-- Witness for C6 at the degenerate conversation (no messages, no
participants, zero duration): both guarded quotients evaluate to 0, and the
scenario equalities hold. -/
theorem conversation_metrics_guarded_witness :
    (conv_metrics ⟨[], [], 0, 0⟩).average_messages_per_participant = 0 ∧
    (conv_metrics ⟨[], [], 0, 0⟩).messages_per_minute = 0 ∧
    (get_conversation_metrics (process_all ProcessorState.init scenarioMsgs) "c1").map
        (fun m => m.messages_per_minute) = some (5/2) := by
  have h := conversation_metrics_guarded ⟨[], [], 0, 0⟩ ⟨[], [], 0, 0⟩ rfl (by decide)
  exact ⟨h.1, h.2.1, h.2.2.2.2⟩

/-! ## RelationshipAnalyzer (src/core/relationship/relationship_analyzer.py)

The numeric fields the analyzer reads from `interaction_data`
(`dict.get(..., 0.0)`: a missing field is the value 0). -/

structure InteractionData where
  sentiment : ℚ
  response_time_score : ℚ
  sentiment_consistency : ℚ
  engagement_level : ℚ
  message_clarity : ℚ
  response_relevance : ℚ
  emotional_alignment : ℚ
deriving Repr, DecidableEq

/-- `relationship.interaction_metrics` of a tracked relation. -/
structure InteractionMetrics where
  conversation_count : ℕ
  average_sentiment : ℚ
  trust_score : ℚ
  communication_quality : ℚ
deriving Repr, DecidableEq

/-- The slice of a `UserProfile` the analyzer touches: its per-related-user
relationship records. -/
structure UserProfile where
  relationships : ℤ → Option InteractionMetrics

/-- `RelationshipAnalyzer._calculate_trust_score`:
`0.9·current + 0.1·(0.3·response_time_score + 0.3·sentiment_consistency
+ 0.4·engagement_level)`. -/
def calculate_trust_score (current_score : ℚ) (d : InteractionData) : ℚ :=
  9/10 * current_score +
    1/10 * (d.response_time_score * (3/10) + d.sentiment_consistency * (3/10) +
      d.engagement_level * (4/10))

/-- `RelationshipAnalyzer._calculate_communication_quality`:
`0.3·message_clarity + 0.3·response_relevance + 0.4·emotional_alignment`,
recomputed fresh on every call. -/
def calculate_communication_quality (d : InteractionData) : ℚ :=
  d.message_clarity * (3/10) + d.response_relevance * (3/10) +
    d.emotional_alignment * (4/10)

/-- `RelationshipAnalyzer.update_relationship_metrics`.  When the profile has
no record for `related_user_id` the method returns the empty dictionary
before touching anything — the NotFound failure path, modelled as `none`
paired with the unchanged profile.  Otherwise it increments
`conversation_count`, smooths `average_sentiment`
(`0.8·old + 0.2·sentiment`), recomputes the trust score and the
communication quality, and returns the updated metrics. -/
def update_relationship_metrics (p : UserProfile) (related_user_id : ℤ)
    (d : InteractionData) : Option InteractionMetrics × UserProfile :=
  match p.relationships related_user_id with
  | none => (none, p)
  | some m =>
    let m' : InteractionMetrics :=
      { conversation_count := m.conversation_count + 1
        average_sentiment := 8/10 * m.average_sentiment + 2/10 * d.sentiment
        trust_score := calculate_trust_score m.trust_score d
        communication_quality := calculate_communication_quality d }
    (some m',
     { relationships := fun u =>
         if u = related_user_id then some m' else p.relationships u })

/-- All six signal fields read by the trust scorer lie in `[0, 1]`. -/
def SignalInRange (d : InteractionData) : Prop :=
  0 ≤ d.response_time_score ∧ d.response_time_score ≤ 1 ∧
  0 ≤ d.sentiment_consistency ∧ d.sentiment_consistency ≤ 1 ∧
  0 ≤ d.engagement_level ∧ d.engagement_level ≤ 1 ∧
  0 ≤ d.message_clarity ∧ d.message_clarity ≤ 1 ∧
  0 ≤ d.response_relevance ∧ d.response_relevance ≤ 1 ∧
  0 ≤ d.emotional_alignment ∧ d.emotional_alignment ≤ 1

/-- The trust score after a whole sequence of updates. -/
def trust_fold (t0 : ℚ) (ds : List InteractionData) : ℚ :=
  ds.foldl calculate_trust_score t0

lemma trust_step_bounds (t : ℚ) (d : InteractionData)
    (h0 : 0 ≤ t) (h1 : t ≤ 1) (hd : SignalInRange d) :
    0 ≤ calculate_trust_score t d ∧ calculate_trust_score t d ≤ 1 := by
  obtain ⟨a0, a1, b0, b1, c0, c1, -, -, -, -, -, -⟩ := hd
  unfold calculate_trust_score
  constructor <;> nlinarith

/-- C7: starting from any `trust_score` in `[0,1]`, after any sequence of
updates whose signal fields all lie in `[0,1]` the trust score
`0.9·old + 0.1·(0.3·rts + 0.3·sc + 0.4·el)` is still in `[0,1]` (hence so is
every intermediate value, each prefix being such a sequence), and the
communication quality `0.3·mc + 0.3·rr + 0.4·ea` of every such signal lies
in `[0,1]`. -/
theorem trust_and_quality_bounded (t0 : ℚ) (ds : List InteractionData)
    (h0 : 0 ≤ t0) (h1 : t0 ≤ 1) (hd : ∀ d ∈ ds, SignalInRange d) :
    (0 ≤ trust_fold t0 ds ∧ trust_fold t0 ds ≤ 1) ∧
    ∀ d ∈ ds, 0 ≤ calculate_communication_quality d ∧
      calculate_communication_quality d ≤ 1 := by
  constructor
  · induction ds generalizing t0 with
    | nil => exact ⟨h0, h1⟩
    | cons d rest ih =>
      have hstep := trust_step_bounds t0 d h0 h1 (hd d (List.mem_cons_self d rest))
      exact ih (calculate_trust_score t0 d) hstep.1 hstep.2
        (fun x hx => hd x (List.mem_cons_of_mem d hx))
  · intro d hmem
    obtain ⟨-, -, -, -, -, -, m0, m1, r0, r1, e0, e1⟩ := hd d hmem
    unfold calculate_communication_quality
    constructor <;> nlinarith

/-- Witness for C7 at `trust_score = 1/2` and one update whose seven fields
are all `1/2`. -/
theorem trust_and_quality_bounded_witness :
    (0 ≤ trust_fold (1/2) [⟨1/2, 1/2, 1/2, 1/2, 1/2, 1/2, 1/2⟩] ∧
     trust_fold (1/2) [⟨1/2, 1/2, 1/2, 1/2, 1/2, 1/2, 1/2⟩] ≤ 1) ∧
    ∀ d ∈ [(⟨1/2, 1/2, 1/2, 1/2, 1/2, 1/2, 1/2⟩ : InteractionData)],
      0 ≤ calculate_communication_quality d ∧
      calculate_communication_quality d ≤ 1 := by
  refine trust_and_quality_bounded (1/2) _ (by norm_num) (by norm_num) ?_
  intro d hmem
  simp only [List.mem_singleton] at hmem
  subst hmem
  refine ⟨by norm_num, by norm_num, by norm_num, by norm_num, by norm_num, by norm_num,
    by norm_num, by norm_num, by norm_num, by norm_num, by norm_num, by norm_num⟩

/-- C8: when the profile holds no relationship record for the given related
user, `update_relationship_metrics` takes the NotFound failure path: it
returns no metrics and the profile state is exactly unchanged — nothing is
incremented, smoothed or recomputed. -/
theorem update_relationship_not_found (p : UserProfile) (rid : ℤ)
    (d : InteractionData) (h : p.relationships rid = none) :
    update_relationship_metrics p rid d = (none, p) := by
  simp [update_relationship_metrics, h]

/-- Witness for C8 at the empty profile and related user 5. -/
theorem update_relationship_not_found_witness :
    update_relationship_metrics ⟨fun _ => none⟩ 5 ⟨0, 0, 0, 0, 0, 0, 0⟩ =
      (none, (⟨fun _ => none⟩ : UserProfile)) :=
  update_relationship_not_found ⟨fun _ => none⟩ 5 ⟨0, 0, 0, 0, 0, 0, 0⟩ rfl

/-! ## AdaptiveIQAssessment (src/core/assessment/iq_assessment.py) -/

structure IQQuestion where
  id : String
  category : String
  difficulty : ℚ
  question : String
  options : List String
  correct_answer : String
  time_limit : ℕ
  cognitive_areas : List String
deriving Repr, DecidableEq

/-- The logical-reasoning question loaded by `_initialize_question_bank`. -/
def question_L1 : IQQuestion :=
  { id := "L1", category := "logical_reasoning", difficulty := 1/2
    question := "If all A are B, and all B are C, what can we conclude?"
    options := ["All A are C", "Some A are C", "No A are C", "Cannot determine"]
    correct_answer := "All A are C", time_limit := 60
    cognitive_areas := ["deductive_reasoning", "logical_inference"] }

/-- The pattern-recognition question loaded by `_initialize_question_bank`. -/
def question_P1 : IQQuestion :=
  { id := "P1", category := "pattern_recognition", difficulty := 6/10
    question := "What number comes next: 2, 6, 12, 20, 30, __?"
    options := ["42", "40", "36", "44"]
    correct_answer := "42", time_limit := 45
    cognitive_areas := ["sequence_recognition", "mathematical_reasoning"] }

/-- `AdaptiveIQAssessment._initialize_question_bank`: six categories, of
which only two are populated. -/
def question_bank : List (String × List IQQuestion) :=
  [("logical_reasoning", [question_L1]),
   ("pattern_recognition", [question_P1]),
   ("spatial_reasoning", []),
   ("numerical_reasoning", []),
   ("verbal_reasoning", []),
   ("memory", [])]

/-- One entry appended to `response_history[user_id]` by `process_response`. -/
structure IQResponse where
  question_id : String
  correct : Bool
  time_factor : ℚ
  performance_score : ℚ
deriving Repr, DecidableEq

/-- Mutable state of an `AdaptiveIQAssessment` instance.  Note that
`current_difficulty` is a single attribute of the instance — one value shared
by all users — while `response_history` is a per-user dictionary
(`none` = key absent). -/
structure AssessmentState where
  current_difficulty : ℚ
  response_history : ℤ → Option (List IQResponse)

/-- `AdaptiveIQAssessment.__init__`: difficulty `0.5`, empty history. -/
def AssessmentState.init : AssessmentState :=
  { current_difficulty := 1/2, response_history := fun _ => none }

/-- Modelled from the spec: `AdaptiveIQAssessment._find_question` is called
by `process_response` and `_calculate_cognitive_scores` but is defined
nowhere in the repository.  Per the spec, scoring "fails with
`QuestionNotFound` if `question_id` is unknown", so the lookup searches the
whole question bank by id. -/
def find_question (qid : String) : Option IQQuestion :=
  (question_bank.flatMap Prod.snd).find? (fun q => q.id == qid)

/-- Modelled from the spec: `AdaptiveIQAssessment._select_category` is called
by `get_next_question` but is defined nowhere in the repository.  Per the
spec it prefers "the category with the fewest prior responses for this user —
ties broken arbitrarily"; the model resolves ties by bank order (the spec
asks for a documented deterministic policy). -/
def category_response_count (hist : List IQResponse) (cat : String) : ℕ :=
  (hist.filter (fun r =>
    match find_question r.question_id with
    | some q => q.category == cat
    | none => false)).length

def select_category (hist : List IQResponse) : String :=
  match question_bank.map Prod.fst with
  | [] => ""
  | c :: cs => cs.foldl (fun best c' =>
      if category_response_count hist c' < category_response_count hist best
      then c' else best) c

/-- `AdaptiveIQAssessment.get_next_question`: creates the user's
`response_history` entry when absent, then filters the selected category's
bank to unanswered questions within `0.1` of the shared
`current_difficulty`.  The Python code picks `random.choice` of the suitable
list; the model returns its head (the spec requires the randomness to be
injectable/deterministic; no claim depends on which suitable question is
picked). -/
def get_next_question (s : AssessmentState) (user_id : ℤ) :
    Option IQQuestion × AssessmentState :=
  let hist := (s.response_history user_id).getD []
  let s' : AssessmentState :=
    { s with response_history := fun u =>
        if u = user_id then some hist else s.response_history u }
  let category := select_category hist
  let questions := ((question_bank.find? (fun kv => kv.1 == category)).map Prod.snd).getD []
  let suitable := questions.filter (fun q =>
    (decide (|q.difficulty - s.current_difficulty| < 1/10)) &&
      !((hist.map (fun r => r.question_id)).contains q.id))
  (suitable.head?, s')

/-- `np.mean` over rationals. -/
def mean (l : List ℚ) : ℚ := l.sum / (l.length : ℚ)

/-- `AdaptiveIQAssessment._adjust_difficulty`: mean performance of the last
three recorded responses; `> 0.7` raises the shared difficulty by `0.1`
capped at `0.95`, `< 0.3` lowers it by `0.1` floored at `0.2`, otherwise no
change.  Its only call site (`process_response`, right after the append)
guarantees the user's history exists and is non-empty. -/
def adjust_difficulty (s : AssessmentState) (user_id : ℤ) : AssessmentState :=
  let hist := (s.response_history user_id).getD []
  let recent := hist.drop (hist.length - 3)
  let avg := mean (recent.map (fun r => r.performance_score))
  if avg > 7/10 then
    { s with current_difficulty := min (95/100) (s.current_difficulty + 1/10) }
  else if avg < 3/10 then
    { s with current_difficulty := max (2/10) (s.current_difficulty - 1/10) }
  else s

/-- Outcome of `process_response`: the "Question not found" error dictionary
(a normal return), the `KeyError` raised by the unguarded
`self.response_history[user_id]` access when the user has no history entry,
or a recorded score with the completion flag. -/
inductive ProcessOutcome
  | questionNotFound
  | keyErrorUser
  | scored (score : ℚ) (complete : Bool)
deriving Repr, DecidableEq

/-- `AdaptiveIQAssessment.process_response` (with the spec-modelled
`_find_question`): look the question up, compute correctness, time factor
(`min(1, time_limit/response_time)` for positive time, else 0) and
`performance_score = correct + 0.2·time_factor + 0.3·difficulty`, append to
the user's history (KeyError when the entry is missing — nothing is mutated
before this access), adjust the shared difficulty, and report the score with
`complete = (history length ≥ 20)`. -/
def process_response (s : AssessmentState) (user_id : ℤ)
    (question_id answer : String) (response_time : ℚ) :
    ProcessOutcome × AssessmentState :=
  match find_question question_id with
  | none => (.questionNotFound, s)
  | some q =>
    let is_correct := answer == q.correct_answer
    let time_factor : ℚ :=
      if response_time > 0 then min 1 ((q.time_limit : ℚ) / response_time) else 0
    let performance_score : ℚ :=
      (if is_correct then 1 else 0) + time_factor * (2/10) + q.difficulty * (3/10)
    match s.response_history user_id with
    | none => (.keyErrorUser, s)
    | some hist =>
      let hist' := hist ++ [⟨question_id, is_correct, time_factor, performance_score⟩]
      let s1 : AssessmentState :=
        { s with response_history := fun u =>
            if u = user_id then some hist' else s.response_history u }
      let s2 := adjust_difficulty s1 user_id
      (.scored performance_score (decide (hist'.length ≥ 20)), s2)

/-- Modelled from the spec: `_calculate_difficulty_progression` is called by
`calculate_final_iq` but is defined nowhere in the repository; per the spec
it is "a monotonicity measure of difficulty across the session", implemented
"as the normalized slope of difficulty-over-time".  Modelled as the change
in answered difficulty divided by the response count (0 for an unknown
question id); a total function, so it adds no error path, and its value is
discarded by the exception `calculate_final_iq` raises later, so no claim
depends on the choice. -/
def calculate_difficulty_progression (responses : List IQResponse) : ℚ :=
  let diffs := responses.map
    (fun r => ((find_question r.question_id).map IQQuestion.difficulty).getD 0)
  match diffs with
  | [] => 0
  | d :: rest => (rest.getLastD d - d) / (diffs.length : ℚ)

/-- Driver events for an assessment instance: a `get_next_question` call or a
`process_response` call. -/
inductive AssessmentEvent
  | ask (user_id : ℤ)
  | answer (user_id : ℤ) (question_id answer : String) (response_time : ℚ)

def assessment_step (s : AssessmentState) (ev : AssessmentEvent) : AssessmentState :=
  match ev with
  | .ask uid => (get_next_question s uid).2
  | .answer uid qid ans t => (process_response s uid qid ans t).2

/-- Run a sequence of question/answer events from a fresh instance. -/
def run_assessment (evs : List AssessmentEvent) : AssessmentState :=
  evs.foldl assessment_step AssessmentState.init

lemma adjust_difficulty_bounds (s : AssessmentState) (uid : ℤ)
    (h0 : 2/10 ≤ s.current_difficulty) (h1 : s.current_difficulty ≤ 95/100) :
    2/10 ≤ (adjust_difficulty s uid).current_difficulty ∧
      (adjust_difficulty s uid).current_difficulty ≤ 95/100 := by
  simp only [adjust_difficulty]
  split
  · exact ⟨le_min (by norm_num) (by linarith), min_le_left _ _⟩
  · split
    · exact ⟨le_max_left _ _, max_le (by norm_num) (by linarith)⟩
    · exact ⟨h0, h1⟩

lemma process_response_difficulty_bounds (s : AssessmentState) (uid : ℤ)
    (qid ans : String) (t : ℚ)
    (h0 : 2/10 ≤ s.current_difficulty) (h1 : s.current_difficulty ≤ 95/100) :
    2/10 ≤ ((process_response s uid qid ans t).2).current_difficulty ∧
      ((process_response s uid qid ans t).2).current_difficulty ≤ 95/100 := by
  unfold process_response
  cases hq : find_question qid with
  | none => exact ⟨h0, h1⟩
  | some q =>
    cases hh : s.response_history uid with
    | none => exact ⟨h0, h1⟩
    | some hist => exact adjust_difficulty_bounds _ uid h0 h1

lemma assessment_step_bounds (s : AssessmentState) (ev : AssessmentEvent)
    (h0 : 2/10 ≤ s.current_difficulty) (h1 : s.current_difficulty ≤ 95/100) :
    2/10 ≤ (assessment_step s ev).current_difficulty ∧
      (assessment_step s ev).current_difficulty ≤ 95/100 := by
  cases ev with
  | ask uid => exact ⟨h0, h1⟩
  | answer uid qid ans t => exact process_response_difficulty_bounds s uid qid ans t h0 h1

/-- C2: for every sequence of question/answer events from a fresh instance —
any users, any answers, any response times — `current_difficulty` stays in
`[0.2, 0.95]`: each adjustment takes the mean performance of the user's last
three responses and applies `+0.1` capped at `0.95` above `0.7`, `−0.1`
floored at `0.2` below `0.3`, and no change otherwise, so starting from
`0.5` the value can never leave the interval. -/
theorem current_difficulty_bounded (evs : List AssessmentEvent) :
    2/10 ≤ (run_assessment evs).current_difficulty ∧
      (run_assessment evs).current_difficulty ≤ 95/100 := by
  have main : ∀ (l : List AssessmentEvent) (s : AssessmentState),
      2/10 ≤ s.current_difficulty → s.current_difficulty ≤ 95/100 →
      2/10 ≤ (l.foldl assessment_step s).current_difficulty ∧
        (l.foldl assessment_step s).current_difficulty ≤ 95/100 := by
    intro l
    induction l with
    | nil => intro s h0 h1; exact ⟨h0, h1⟩
    | cons ev rest ih =>
      intro s h0 h1
      have h := assessment_step_bounds s ev h0 h1
      exact ih (assessment_step s ev) h.1 h.2
  exact main evs AssessmentState.init
    (by norm_num [AssessmentState.init]) (by norm_num [AssessmentState.init])

/-- C3 fails on the code: `current_difficulty` is one attribute of the
instance shared by every user, not per-user state.  Concretely: users 1 and 2
are distinct, both have been given a question, the difficulty relevant to
user 1's next selection is `1/2`; scoring a single high-performance response
for user 2 moves it to `3/5`. -/
theorem difficulty_not_per_user :
    (1 : ℤ) ≠ 2 ∧
    ((get_next_question ((get_next_question AssessmentState.init 1).2) 2).2).current_difficulty
      = 1/2 ∧
    ((process_response ((get_next_question ((get_next_question AssessmentState.init 1).2) 2).2)
        2 "L1" "All A are C" 30).2).current_difficulty = 3/5 := by
  refine ⟨by decide, rfl, ?_⟩
  norm_num [process_response, find_question, question_bank, question_L1, question_P1,
    get_next_question, select_category, category_response_count, adjust_difficulty, mean,
    AssessmentState.init]

lemma adjust_difficulty_history (s : AssessmentState) (uid : ℤ) :
    (adjust_difficulty s uid).response_history = s.response_history := by
  simp only [adjust_difficulty]
  split
  · rfl
  · split
    · rfl
    · rfl

/-- C3 amended: only `response_history` is per user — scoring a response for
user `B` never changes user `A`'s recorded history (for `A ≠ B`) — while
`current_difficulty` is shared, so scoring `B`'s response may change the
difficulty used to select `A`'s next question. -/
theorem response_history_per_user (s : AssessmentState) (A B : ℤ)
    (qid ans : String) (t : ℚ) (hAB : A ≠ B) :
    ((process_response s B qid ans t).2).response_history A = s.response_history A := by
  unfold process_response
  cases hq : find_question qid with
  | none => rfl
  | some q =>
    cases hh : s.response_history B with
    | none => rfl
    | some hist =>
      show (adjust_difficulty _ B).response_history A = s.response_history A
      rw [adjust_difficulty_history]
      simp [hAB]

/-- Witness for the amended C3: scoring a response for user 2 leaves user 3's
(absent) history entry absent. -/
theorem response_history_per_user_witness :
    ((process_response AssessmentState.init 2 "L1" "x" 1).2).response_history 3 =
      AssessmentState.init.response_history 3 :=
  response_history_per_user AssessmentState.init 3 2 "L1" "x" 1 (by decide)

/-- C10: scoring a response for a user that was never given a question does
not record anything and produces no result: after `_find_question` succeeds,
the unguarded `self.response_history[user_id]` access raises `KeyError` and
the state is returned exactly unchanged; the per-user history entry is
created by `get_next_question` (which stores `some` of the existing-or-empty
list), so callers must request a question before scoring a first response. -/
theorem process_response_requires_prior_question (s : AssessmentState) (uid : ℤ)
    (qid ans : String) (t : ℚ) (q : IQQuestion)
    (hq : find_question qid = some q) (h : s.response_history uid = none) :
    process_response s uid qid ans t = (ProcessOutcome.keyErrorUser, s) ∧
    ∀ u : ℤ, ((get_next_question s u).2).response_history u =
      some ((s.response_history u).getD []) := by
  constructor
  · unfold process_response
    rw [hq]
    show (match s.response_history uid with
      | none => (ProcessOutcome.keyErrorUser, s)
      | some hist => _) = (ProcessOutcome.keyErrorUser, s)
    rw [h]
  · intro u
    simp [get_next_question]

/-- Witness for C10: user 7 was never given a question, so scoring "L1" for
them key-errors with the state unchanged, while asking first creates the
empty history entry. -/
theorem process_response_requires_prior_question_witness :
    process_response AssessmentState.init 7 "L1" "All A are C" 30 =
      (ProcessOutcome.keyErrorUser, AssessmentState.init) ∧
    ((get_next_question AssessmentState.init 7).2).response_history 7 = some [] := by
  have h := process_response_requires_prior_question AssessmentState.init 7
    "L1" "All A are C" 30 question_L1 rfl rfl
  exact ⟨h.1, h.2 7⟩

end Dialmate
